import Mathlib

/-!
# AgroVision — verification of the live video surveillance pipeline

Shallow embedding of the pipeline code of `camera_handler.py`
(`CameraHandler.get_frame` and its detection/annotation loop) and of
`app.py` (the global `alerts` list, the `/video_feed/<camera_id>`
generator loop and the `/api/alerts` endpoint).

Modelling conventions:
- pixel buffers are abstracted away: a raw frame is an opaque
  identifier (`Nat`), and the cv2 drawing calls (`rectangle`,
  `putText`) are recorded as data on an `AnnFrame` value instead of
  mutating pixels;
- detector confidences are rationals (the source compares Python
  floats against the literals `0.3` and `0.5`; the comparisons used
  are exact at these values);
- the YOLO model call is parametrised by its outcome: a list of raw
  boxes on success, or an inference exception (`InferOutcome.err`);
- `datetime.now().strftime(...)` is parametrised as a timestamp string;
- the frame-resize branch (purely a downscale of pixel data, lines
  139-145) is not represented since no annotation decision depends
  on it.
-/

/-- A raw detector box, as read off `result.boxes`: class index
`box.cls[0]`, confidence `box.conf[0]`, corners `box.xyxy[0]`. -/
structure Box where
  cls : Nat
  conf : ℚ
  x1 : Int
  y1 : Int
  x2 : Int
  y2 : Int
deriving DecidableEq, Repr

/-- A processed detection record (`detection_info` in the source):
label, confidence and box corners. -/
structure Detection where
  label : String
  confidence : ℚ
  x1 : Int
  y1 : Int
  x2 : Int
  y2 : Int
deriving DecidableEq, Repr

/-- An alert record, as built at lines 187-193 of `camera_handler.py`. -/
structure Alert where
  type : String
  message : String
  camera_id : Nat
  confidence : ℚ
  timestamp : String
deriving DecidableEq, Repr

/-- `self.agricultural_classes`: the hardcoded label-to-message table
(lines 21-34 of `camera_handler.py`). -/
def agricultural_classes : List (String × String) :=
  [("person", "Human Detected"),
   ("cow", "Cow Detected"),
   ("sheep", "Sheep Detected"),
   ("horse", "Horse Detected"),
   ("dog", "Dog Detected"),
   ("cat", "Cat Detected"),
   ("bird", "Bird Detected"),
   ("car", "Vehicle Detected"),
   ("truck", "Truck Detected"),
   ("bicycle", "Bicycle Detected"),
   ("goat", "Goat Detected"),
   ("pig", "Pig Detected")]

/-- Python dict lookup `self.agricultural_classes[label]`;
`label in self.agricultural_classes` is `agriLookup label ≠ none`. -/
def agriLookup (label : String) : Option String :=
  (agricultural_classes.find? (fun p => p.1 = label)).map (fun p => p.2)

/-- Label resolution for one box (lines 166-174): cameras 1, 2, 3 have
their label forced to `cow`, `goat`, `pig`; otherwise the label is the
model's class-name table at the box's class index. -/
def resolveLabel (camera_id : Nat) (names : Nat → String) (b : Box) : String :=
  if camera_id = 1 then "cow"
  else if camera_id = 2 then "goat"
  else if camera_id = 3 then "pig"
  else names b.cls

/-- BGR colour picked for a drawn box (lines 198-206). -/
def boxColor (label : String) : Nat × Nat × Nat :=
  if label = "person" then (0, 0, 255)
  else if label = "cow" ∨ label = "sheep" ∨ label = "horse" then (0, 255, 0)
  else if label = "car" ∨ label = "truck" then (255, 0, 0)
  else (0, 255, 255)

/-- A bounding box drawn onto the frame (`cv2.rectangle` plus the
label text, lines 208-210). -/
structure DrawnBox where
  label : String
  conf : ℚ
  x1 : Int
  y1 : Int
  x2 : Int
  y2 : Int
  color : Nat × Nat × Nat
deriving DecidableEq, Repr

/-- Accumulator of the detection loop (lines 157-210): the
`detections` list, the single `alert` slot (initialised `None` at line
152) and the boxes drawn so far. -/
structure ProcState where
  detections : List Detection
  alert : Option Alert
  drawn : List DrawnBox
deriving DecidableEq, Repr

/-- The alert dict built for a significant detection (lines 187-193). -/
def mkAlert (camera_id : Nat) (ts : String) (label : String) (msg : String)
    (conf : ℚ) : Alert :=
  { type := label ++ "_detected"
    message := msg
    camera_id := camera_id
    confidence := conf
    timestamp := ts }

/-- Body of the inner `for box in boxes` loop (lines 162-210): boxes at
confidence `> 0.3` get their label resolved (camera override first);
labels present in `agricultural_classes` are recorded as detections,
overwrite the alert slot when confidence `> 0.5`, and are drawn. -/
def processBox (camera_id : Nat) (names : Nat → String) (ts : String)
    (s : ProcState) (b : Box) : ProcState :=
  if mkRat 3 10 < b.conf then
    let label := resolveLabel camera_id names b
    match agriLookup label with
    | some msg =>
      { detections := s.detections ++ [⟨label, b.conf, b.x1, b.y1, b.x2, b.y2⟩]
        alert := if mkRat 1 2 < b.conf then some (mkAlert camera_id ts label msg b.conf)
                 else s.alert
        drawn := s.drawn ++ [⟨label, b.conf, b.x1, b.y1, b.x2, b.y2, boxColor label⟩] }
    | none => s
  else s

/-- The whole detection loop over the frame's boxes, starting from the
empty `detections` list and `alert = None`. -/
def processDetections (camera_id : Nat) (names : Nat → String) (ts : String)
    (boxes : List Box) : ProcState :=
  boxes.foldl (processBox camera_id names ts) ⟨[], none, []⟩

/-- Outcome of the `self.model(frame, verbose=False)` call: a list of
boxes, or an exception caught by the handler at lines 217-221. -/
inductive InferOutcome where
  | ok (boxes : List Box)
  | err
deriving DecidableEq, Repr

/-- The annotated frame: the camera-info text drawn at lines 148-149,
the bounding boxes drawn, and the status/count overlays drawn at lines
213-225 (`Detections: n`, `Detection Error`, `Model Not Loaded`). -/
structure AnnFrame where
  camera_info : String
  drawn : List DrawnBox
  overlays : List String
deriving DecidableEq, Repr

/-- Annotation of one successfully read frame (lines 147-225): the
camera-info overlay, then — when a model is loaded — the detection
loop over the inference outcome and a detection-count overlay, or the
`Detection Error` overlay when inference raised; with no model, the
`Model Not Loaded` overlay. Returns the annotated frame and the
alert slot. -/
def annotateFrame (model : Option (Nat → String)) (camera_id : Nat)
    (camName : String) (outcome : InferOutcome) (ts : String) :
    AnnFrame × Option Alert :=
  let info := "Camera " ++ toString (camera_id + 1) ++ ": " ++ camName
  match model with
  | none => (⟨info, [], ["Model Not Loaded"]⟩, none)
  | some names =>
    match outcome with
    | .err => (⟨info, [], ["Detection Error"]⟩, none)
    | .ok boxes =>
      let s := processDetections camera_id names ts boxes
      let counts := if s.detections.isEmpty then []
                    else ["Detections: " ++ toString s.detections.length]
      (⟨info, s.drawn, counts⟩, s.alert)

/-- A `cv2.VideoCapture` over a video file: the file's frames (raw
frames are opaque identifiers) and the current read position.  A read
at end-of-stream reports failure and does not advance; `set(POS_FRAMES, 0)`
rewinds the position to the first frame. -/
structure Cap where
  video : List Nat
  pos : Nat
deriving DecidableEq, Repr

/-- `cap.read()`: the frame at the current position (advancing it), or
`none` at end-of-stream. -/
def Cap.read (c : Cap) : Option Nat × Cap :=
  match c.video.get? c.pos with
  | some f => (some f, { c with pos := c.pos + 1 })
  | none => (none, c)

/-- `cap.set(cv2.CAP_PROP_POS_FRAMES, 0)`: seek back to the first frame. -/
def Cap.seek0 (c : Cap) : Cap :=
  { c with pos := 0 }

/-- The read-with-loop logic of `get_frame` (lines 128-137): read once;
on end-of-stream, seek to frame 0 and read exactly once more.  Returns
the frame read (if any), the updated capture and the number of `read`
calls issued (1 or 2). -/
def readFrameLooping (c : Cap) : Option Nat × Cap × Nat :=
  match (c.read).1 with
  | some f => (some f, (c.read).2, 1)
  | none => ((c.seek0.read).1, (c.seek0.read).2, 2)

/-- One entry of `self.cameras`: the capture handle and the video's
file name (the other recorded properties are diagnostic metadata). -/
structure CameraInfo where
  cap : Cap
  name : String
deriving DecidableEq, Repr

/-- The `CameraHandler`: the `cameras` dict (an association list keyed
by camera id) and the optional YOLO model, carried as its class-name
table (`self.model = None` when loading failed). -/
structure Handler where
  cameras : List (Nat × CameraInfo)
  model : Option (Nat → String)

/-- Dict lookup `self.cameras[camera_id]`. -/
def Handler.findCamera (h : Handler) (camera_id : Nat) : Option CameraInfo :=
  (h.cameras.find? (fun p => p.1 = camera_id)).map (fun p => p.2)

/-- Store an updated capture back for a camera id. -/
def Handler.setCap (h : Handler) (camera_id : Nat) (c : Cap) : Handler :=
  { h with cameras := h.cameras.map (fun p =>
      if p.1 = camera_id then (p.1, { p.2 with cap := c }) else p) }

/-- Result of one `get_frame` call: the emitted (annotated, encoded)
frame if any, the alert if any, the updated handler, and the number of
decoder `read` calls issued during the call. -/
structure FrameResult where
  frame : Option AnnFrame
  alert : Option Alert
  handler : Handler
  reads : Nat

/-- `CameraHandler.get_frame` (lines 117-236): unknown camera ids
return `(None, None)` with no read; otherwise read with one looped
retry; a double read failure returns `(None, None)`; otherwise the
frame is annotated and JPEG-encoded (`enc` is the outcome of
`cv2.imencode`; on failure the call returns `(None, None)`, dropping
any alert). `infer` gives the model call's outcome on each raw frame. -/
def Handler.get_frame (h : Handler) (infer : Nat → InferOutcome)
    (enc : AnnFrame → Bool) (ts : String) (camera_id : Nat) : FrameResult :=
  match h.findCamera camera_id with
  | none => ⟨none, none, h, 0⟩
  | some info =>
    match (readFrameLooping info.cap).1 with
    | none =>
      ⟨none, none, h.setCap camera_id (readFrameLooping info.cap).2.1,
       (readFrameLooping info.cap).2.2⟩
    | some f =>
      if enc (annotateFrame h.model camera_id info.name (infer f) ts).1 then
        ⟨some (annotateFrame h.model camera_id info.name (infer f) ts).1,
         (annotateFrame h.model camera_id info.name (infer f) ts).2,
         h.setCap camera_id (readFrameLooping info.cap).2.1,
         (readFrameLooping info.cap).2.2⟩
      else
        ⟨none, none, h.setCap camera_id (readFrameLooping info.cap).2.1,
         (readFrameLooping info.cap).2.2⟩

/-- One part of the multipart stream, as yielded at lines 751-753 of
`app.py`: boundary marker, part content type, and the JPEG payload
(carried here as the annotated frame it encodes). -/
structure StreamPart where
  boundary : String
  content_type : String
  payload : AnnFrame
deriving DecidableEq, Repr

/-- The mimetype of the `Response` built at lines 755-756 of `app.py`. -/
def videoFeedMimetype : String :=
  "multipart/x-mixed-replace; boundary=frame"

/-- Global application state touched by the `generate` loop: the
camera handler and the global `alerts` list (`alerts = []`, line 93 of
`app.py`). -/
structure AppState where
  handler : Handler
  alerts : List Alert

/-- `alerts.append(alert)` (line 747 of `app.py`): plain list append,
no eviction. -/
def appendAlert (l : List Alert) (a : Alert) : List Alert :=
  l ++ [a]

/-- `GET /api/alerts` (line 539 of `app.py`): `alerts[-10:]`, the last
ten alerts in append order. -/
def apiAlerts (l : List Alert) : List Alert :=
  l.drop (l.length - 10)

/-- Result of one iteration of a viewer's `generate` loop. -/
structure StepResult where
  state : AppState
  yielded : Option StreamPart
  reads : Nat

/-- One iteration of the `while True` body of `generate` (lines
741-754 of `app.py`): call `get_frame`; if a frame came back, append
the alert (if any) to the global list and yield a multipart part with
boundary `frame` and content type `image/jpeg`; otherwise yield
nothing and fall through to the sleep.  The loop has no break or
return: no iteration closes the stream. -/
def generateStep (infer : Nat → InferOutcome) (enc : AnnFrame → Bool)
    (ts : String) (camera_id : Nat) (s : AppState) : StepResult :=
  match (s.handler.get_frame infer enc ts camera_id).frame with
  | some ann =>
    { state := { handler := (s.handler.get_frame infer enc ts camera_id).handler
                 alerts := match (s.handler.get_frame infer enc ts camera_id).alert with
                           | some a => appendAlert s.alerts a
                           | none => s.alerts }
      yielded := some ⟨"frame", "image/jpeg", ann⟩
      reads := (s.handler.get_frame infer enc ts camera_id).reads }
  | none =>
    { state := { handler := (s.handler.get_frame infer enc ts camera_id).handler
                 alerts := s.alerts }
      yielded := none
      reads := (s.handler.get_frame infer enc ts camera_id).reads }

/-- Accumulated outcome of several `generate` iterations against the
shared state: final state, parts yielded (in order) and total decoder
reads issued. -/
structure RunResult where
  state : AppState
  parts : List StreamPart
  reads : Nat

/-- Run `n` successive `generate` iterations for one camera against
the shared state.  With several concurrent viewers attached to the
same camera, a round of the system interleaves one such iteration per
viewer, all against the same shared handler, so a round of `n` viewers
is `n` iterations. -/
def runGenerate (infer : Nat → InferOutcome) (enc : AnnFrame → Bool)
    (ts : String) (camera_id : Nat) : Nat → AppState → RunResult
  | 0, s => ⟨s, [], 0⟩
  | n + 1, s =>
    let r := generateStep infer enc ts camera_id s
    let rest := runGenerate infer enc ts camera_id n r.state
    ⟨rest.state, (match r.yielded with | some p => [p] | none => []) ++ rest.parts,
     r.reads + rest.reads⟩

/-! ## Concrete fixtures used by counterexamples and witnesses -/

/-- A concrete class-name table: class 0 is `person`, every other
class index resolves to `chair` (a YOLO class outside the
agricultural table). -/
def namesTest : Nat → String :=
  fun c => if c = 0 then "person" else "chair"

/-- A one-frame video capture at its first frame. -/
def capOne : Cap := ⟨[100], 0⟩

/-- A twelve-frame video capture at its first frame. -/
def capMany : Cap := ⟨[100, 101, 102, 103, 104, 105, 106, 107, 108, 109, 110, 111], 0⟩

/-- A handler with one camera (id 0) over the one-frame video and a
loaded model. -/
def handlerTest : Handler := ⟨[(0, ⟨capOne, "field.mp4"⟩)], some namesTest⟩

/-- A handler with one camera (id 0) over the twelve-frame video. -/
def handlerMany : Handler := ⟨[(0, ⟨capMany, "long.mp4"⟩)], some namesTest⟩

/-- A handler whose camera 0 video decodes no frames at all. -/
def handlerEmpty : Handler := ⟨[(0, ⟨⟨[], 0⟩, "empty.mp4"⟩)], some namesTest⟩

/-- An inference outcome with a single `person` detection at
confidence 0.6 on every frame. -/
def inferPerson : Nat → InferOutcome :=
  fun _ => .ok [⟨0, mkRat 3 5, 0, 0, 10, 10⟩]

/-- JPEG encoding always succeeds. -/
def encAll : AnnFrame → Bool := fun _ => true

/-- A fixed timestamp string. -/
def ts0 : String := "2026-01-01 00:00:00"


/-- A handler whose model failed to load (`self.model = None`). -/
def handlerNoModel : Handler := ⟨[(0, ⟨capOne, "field.mp4"⟩)], none⟩

/-! ## Derived predicates -/

/-- A box qualifies for an alert when it passes the display threshold
(`conf > 0.3`), its resolved label is in the agricultural table, and it
passes the alert threshold (`conf > 0.5`). -/
def alertQual (camera_id : Nat) (names : Nat → String) (b : Box) : Bool :=
  decide (mkRat 3 10 < b.conf) && (agriLookup (resolveLabel camera_id names b)).isSome
    && decide (mkRat 1 2 < b.conf)

/-- The alert the loop body builds for a box (when its resolved label
is in the agricultural table). -/
def mkAlertOfBox (camera_id : Nat) (names : Nat → String) (ts : String)
    (b : Box) : Option Alert :=
  (agriLookup (resolveLabel camera_id names b)).map
    (fun msg => mkAlert camera_id ts (resolveLabel camera_id names b) msg b.conf)

/-- The drawn-box record the loop body appends for a displayed box. -/
def drawnBoxOf (camera_id : Nat) (names : Nat → String) (b : Box) : DrawnBox :=
  ⟨resolveLabel camera_id names b, b.conf, b.x1, b.y1, b.x2, b.y2,
   boxColor (resolveLabel camera_id names b)⟩

/-! ## Helper lemmas about the detection loop -/

theorem processBox_alert_of_qual {camera_id : Nat} {names : Nat → String}
    {ts : String} {s : ProcState} {b : Box}
    (h : alertQual camera_id names b = true) :
    (processBox camera_id names ts s b).alert = mkAlertOfBox camera_id names ts b := by
  simp only [alertQual, Bool.and_eq_true, decide_eq_true_eq, Option.isSome_iff_exists] at h
  obtain ⟨⟨h1, msg, hmsg⟩, h2⟩ := h
  simp only [processBox, if_pos h1, hmsg, mkAlertOfBox, Option.map_some', if_pos h2]

theorem processBox_alert_of_not_qual {camera_id : Nat} {names : Nat → String}
    {ts : String} {s : ProcState} {b : Box}
    (h : alertQual camera_id names b = false) :
    (processBox camera_id names ts s b).alert = s.alert := by
  simp only [alertQual, Bool.and_eq_false_iff, decide_eq_false_iff_not] at h
  by_cases h1 : mkRat 3 10 < b.conf
  · cases hmsg : agriLookup (resolveLabel camera_id names b) with
    | none => simp only [processBox, if_pos h1, hmsg]
    | some msg =>
      have h2 : ¬ mkRat 1 2 < b.conf := by
        rcases h with h | h2
        · rcases h with h | h
          · exact absurd h1 h
          · rw [hmsg] at h; simp at h
        · exact h2
      simp only [processBox, if_pos h1, hmsg, if_neg h2]
  · simp only [processBox, if_neg h1]

theorem mkAlertOfBox_isSome_of_qual (ts : String) {camera_id : Nat}
    {names : Nat → String} {b : Box} (h : alertQual camera_id names b = true) :
    ∃ a, mkAlertOfBox camera_id names ts b = some a := by
  simp only [alertQual, Bool.and_eq_true, Option.isSome_iff_exists] at h
  obtain ⟨⟨_, msg, hmsg⟩, _⟩ := h
  refine ⟨mkAlert camera_id ts (resolveLabel camera_id names b) msg b.conf, ?_⟩
  simp only [mkAlertOfBox, hmsg, Option.map_some']

/-- The single alert slot after the loop holds the alert of the last
qualifying box, or the incoming slot value when no box qualifies. -/
theorem foldl_alert_eq (camera_id : Nat) (names : Nat → String) (ts : String) :
    ∀ (boxes : List Box) (s : ProcState),
    (boxes.foldl (processBox camera_id names ts) s).alert =
      Option.or ((boxes.filter (alertQual camera_id names)).getLast?.bind
        (mkAlertOfBox camera_id names ts)) s.alert := by
  intro boxes
  induction boxes with
  | nil => intro s; simp
  | cons b bs ih =>
    intro s
    rw [List.foldl_cons, ih, List.filter_cons]
    by_cases hq : alertQual camera_id names b = true
    · rw [if_pos hq]
      cases hbs : bs.filter (alertQual camera_id names) with
      | nil =>
        obtain ⟨a, ha⟩ := mkAlertOfBox_isSome_of_qual ts hq
        simp [hbs, processBox_alert_of_qual hq, ha]
      | cons b' l =>
        obtain ⟨x, hx⟩ : ∃ x, (bs.filter (alertQual camera_id names)).getLast? = some x := by
          rw [hbs]
          cases hgl : (b' :: l).getLast? with
          | none => simp at hgl
          | some x => exact ⟨x, rfl⟩
        have hxq : alertQual camera_id names x = true :=
          (List.mem_filter.mp (List.mem_of_getLast?_eq_some hx)).2
        obtain ⟨a, ha⟩ := mkAlertOfBox_isSome_of_qual ts hxq
        rw [hbs] at hx
        rw [List.getLast?_cons_cons, hx]
        simp [ha]
    · rw [if_neg hq, processBox_alert_of_not_qual (Bool.eq_false_iff.mpr hq)]

/-- The detection loop's final alert is exactly the alert of the last
qualifying box (or none). -/
theorem processDetections_alert_eq (camera_id : Nat) (names : Nat → String)
    (ts : String) (boxes : List Box) :
    (processDetections camera_id names ts boxes).alert =
      (boxes.filter (alertQual camera_id names)).getLast?.bind
        (mkAlertOfBox camera_id names ts) := by
  rw [processDetections, foldl_alert_eq]
  cases (boxes.filter (alertQual camera_id names)).getLast?.bind
      (mkAlertOfBox camera_id names ts) with
  | none => rfl
  | some a => rfl

theorem mem_drawn_processBox {camera_id : Nat} {names : Nat → String}
    {ts : String} {s : ProcState} {b : Box} {x : DrawnBox}
    (hx : x ∈ s.drawn) : x ∈ (processBox camera_id names ts s b).drawn := by
  by_cases h1 : mkRat 3 10 < b.conf
  · cases hmsg : agriLookup (resolveLabel camera_id names b) with
    | none => simpa only [processBox, if_pos h1, hmsg] using hx
    | some msg =>
      simp only [processBox, if_pos h1, hmsg, List.mem_append]
      exact Or.inl hx
  · simpa only [processBox, if_neg h1] using hx

theorem foldl_drawn_mono (camera_id : Nat) (names : Nat → String) (ts : String) :
    ∀ (boxes : List Box) (s : ProcState) (x : DrawnBox), x ∈ s.drawn →
    x ∈ (boxes.foldl (processBox camera_id names ts) s).drawn := by
  intro boxes
  induction boxes with
  | nil => intro s x hx; exact hx
  | cons b bs ih =>
    intro s x hx
    exact ih (processBox camera_id names ts s b) x (mem_drawn_processBox hx)

theorem drawnBoxOf_mem_processBox {camera_id : Nat} {names : Nat → String}
    {ts : String} {s : ProcState} {b : Box} (h1 : mkRat 3 10 < b.conf)
    {msg : String} (hmsg : agriLookup (resolveLabel camera_id names b) = some msg) :
    drawnBoxOf camera_id names b ∈ (processBox camera_id names ts s b).drawn := by
  simp only [processBox, if_pos h1, hmsg, List.mem_append, drawnBoxOf]
  exact Or.inr (List.mem_singleton_self _)

theorem drawnBoxOf_mem_foldl (camera_id : Nat) (names : Nat → String) (ts : String) :
    ∀ (boxes : List Box) (s : ProcState) (b : Box), b ∈ boxes →
    mkRat 3 10 < b.conf →
    ∀ msg, agriLookup (resolveLabel camera_id names b) = some msg →
    drawnBoxOf camera_id names b ∈ (boxes.foldl (processBox camera_id names ts) s).drawn := by
  intro boxes
  induction boxes with
  | nil => intro s b hb; exact absurd hb (List.not_mem_nil b)
  | cons a bs ih =>
    intro s b hb h1 msg hmsg
    rcases List.mem_cons.mp hb with rfl | hb'
    · exact foldl_drawn_mono camera_id names ts bs _ _
        (drawnBoxOf_mem_processBox h1 hmsg)
    · exact ih _ b hb' h1 msg hmsg

theorem foldl_drawn_labels (camera_id : Nat) (names : Nat → String) (ts : String) :
    ∀ (boxes : List Box) (s : ProcState),
    (∀ d ∈ s.drawn, (agriLookup d.label).isSome = true) →
    ∀ d ∈ (boxes.foldl (processBox camera_id names ts) s).drawn,
      (agriLookup d.label).isSome = true := by
  intro boxes
  induction boxes with
  | nil => intro s hs; exact hs
  | cons b bs ih =>
    intro s hs
    refine ih (processBox camera_id names ts s b) ?_
    intro d hd
    by_cases h1 : mkRat 3 10 < b.conf
    · cases hmsg : agriLookup (resolveLabel camera_id names b) with
      | none =>
        simp only [processBox, if_pos h1, hmsg] at hd
        exact hs d hd
      | some msg =>
        simp only [processBox, if_pos h1, hmsg, List.mem_append,
          List.mem_singleton] at hd
        rcases hd with hd | rfl
        · exact hs d hd
        · simp only [hmsg, Option.isSome_some]
    · simp only [processBox, if_neg h1] at hd
      exact hs d hd

theorem foldl_detections_labels (camera_id : Nat) (names : Nat → String) (ts : String) :
    ∀ (boxes : List Box) (s : ProcState),
    (∀ d ∈ s.detections, (agriLookup d.label).isSome = true) →
    ∀ d ∈ (boxes.foldl (processBox camera_id names ts) s).detections,
      (agriLookup d.label).isSome = true := by
  intro boxes
  induction boxes with
  | nil => intro s hs; exact hs
  | cons b bs ih =>
    intro s hs
    refine ih (processBox camera_id names ts s b) ?_
    intro d hd
    by_cases h1 : mkRat 3 10 < b.conf
    · cases hmsg : agriLookup (resolveLabel camera_id names b) with
      | none =>
        simp only [processBox, if_pos h1, hmsg] at hd
        exact hs d hd
      | some msg =>
        simp only [processBox, if_pos h1, hmsg, List.mem_append,
          List.mem_singleton] at hd
        rcases hd with hd | rfl
        · exact hs d hd
        · simp only [hmsg, Option.isSome_some]
    · simp only [processBox, if_neg h1] at hd
      exact hs d hd

/-! ## Helper lemmas about the handler and the stream loop -/

theorem find?_map_setCapFn (camera_id : Nat) (c : Cap) :
    ∀ (l : List (Nat × CameraInfo)),
    (l.map (fun p => if p.1 = camera_id then (p.1, { p.2 with cap := c }) else p)).find?
        (fun p => p.1 = camera_id) =
      (l.find? (fun p => p.1 = camera_id)).map
        (fun p => if p.1 = camera_id then (p.1, { p.2 with cap := c }) else p) := by
  intro l
  induction l with
  | nil => rfl
  | cons x xs ih =>
    by_cases hx : x.1 = camera_id
    · have hgx : (if x.1 = camera_id then (x.1, { x.2 with cap := c }) else x).1
          = camera_id := by rw [if_pos hx]; exact hx
      rw [List.map_cons, List.find?_cons_of_pos _ (by simpa using hgx),
        List.find?_cons_of_pos _ (by simpa using hx), Option.map_some']
    · have hgx : (if x.1 = camera_id then (x.1, { x.2 with cap := c }) else x).1
          = x.1 := by rw [if_neg hx]
      rw [List.map_cons, List.find?_cons_of_neg _ (by simp [hgx, hx]),
        List.find?_cons_of_neg _ (by simpa using hx), ih]

theorem findCamera_setCap (h : Handler) (camera_id : Nat) (c : Cap) :
    (h.setCap camera_id c).findCamera camera_id =
      (h.findCamera camera_id).map (fun i => { i with cap := c }) := by
  unfold Handler.findCamera Handler.setCap
  rw [find?_map_setCapFn]
  cases hf : h.cameras.find? (fun p => p.1 = camera_id) with
  | none => rfl
  | some p =>
    have hp : p.1 = camera_id := by simpa using List.find?_some hf
    simp [hp]

theorem get_frame_of_unknown (h : Handler) (infer : Nat → InferOutcome)
    (enc : AnnFrame → Bool) (ts : String) (camera_id : Nat)
    (hf : h.findCamera camera_id = none) :
    h.get_frame infer enc ts camera_id = ⟨none, none, h, 0⟩ := by
  simp only [Handler.get_frame, hf]

theorem readFrameLooping_reads (c : Cap) :
    (readFrameLooping c).2.2 = 1 ∨ (readFrameLooping c).2.2 = 2 := by
  unfold readFrameLooping
  cases (c.read).1 with
  | none => exact Or.inr rfl
  | some f => exact Or.inl rfl

theorem get_frame_reads_eq (h : Handler) (infer : Nat → InferOutcome)
    (enc : AnnFrame → Bool) (ts : String) (camera_id : Nat) (info : CameraInfo)
    (hf : h.findCamera camera_id = some info) :
    (h.get_frame infer enc ts camera_id).reads = (readFrameLooping info.cap).2.2 := by
  simp only [Handler.get_frame, hf]
  split
  · rfl
  · split <;> rfl

theorem get_frame_handler_cases (h : Handler) (infer : Nat → InferOutcome)
    (enc : AnnFrame → Bool) (ts : String) (camera_id : Nat) :
    (h.get_frame infer enc ts camera_id).handler = h ∨
    ∃ c, (h.get_frame infer enc ts camera_id).handler = h.setCap camera_id c := by
  cases hf : h.findCamera camera_id with
  | none => rw [get_frame_of_unknown h infer enc ts camera_id hf]; exact Or.inl rfl
  | some info =>
    simp only [Handler.get_frame, hf]
    split
    · exact Or.inr ⟨_, rfl⟩
    · split
      · exact Or.inr ⟨_, rfl⟩
      · exact Or.inr ⟨_, rfl⟩

theorem findCamera_isSome_after_get_frame (h : Handler) (infer : Nat → InferOutcome)
    (enc : AnnFrame → Bool) (ts : String) (camera_id : Nat)
    (hs : (h.findCamera camera_id).isSome = true) :
    (((h.get_frame infer enc ts camera_id).handler).findCamera camera_id).isSome = true := by
  rcases get_frame_handler_cases h infer enc ts camera_id with he | ⟨c, he⟩ <;> rw [he]
  · exact hs
  · rw [findCamera_setCap]
    simpa using hs

theorem generateStep_state_handler (infer : Nat → InferOutcome) (enc : AnnFrame → Bool)
    (ts : String) (camera_id : Nat) (s : AppState) :
    (generateStep infer enc ts camera_id s).state.handler =
      (s.handler.get_frame infer enc ts camera_id).handler := by
  unfold generateStep
  cases (s.handler.get_frame infer enc ts camera_id).frame with
  | none => rfl
  | some ann => rfl

theorem generateStep_reads (infer : Nat → InferOutcome) (enc : AnnFrame → Bool)
    (ts : String) (camera_id : Nat) (s : AppState) :
    (generateStep infer enc ts camera_id s).reads =
      (s.handler.get_frame infer enc ts camera_id).reads := by
  unfold generateStep
  cases (s.handler.get_frame infer enc ts camera_id).frame with
  | none => rfl
  | some ann => rfl

theorem runGenerate_reads_ge (infer : Nat → InferOutcome) (enc : AnnFrame → Bool)
    (ts : String) (camera_id : Nat) :
    ∀ (n : Nat) (s : AppState), (s.handler.findCamera camera_id).isSome = true →
    n ≤ (runGenerate infer enc ts camera_id n s).reads := by
  intro n
  induction n with
  | zero => intro s _; exact Nat.zero_le _
  | succ n ih =>
    intro s hs
    obtain ⟨info, hinfo⟩ := Option.isSome_iff_exists.mp hs
    have h1 : 1 ≤ (generateStep infer enc ts camera_id s).reads := by
      rw [generateStep_reads, get_frame_reads_eq s.handler infer enc ts camera_id info hinfo]
      rcases readFrameLooping_reads info.cap with h | h <;> omega
    have h2 := ih (generateStep infer enc ts camera_id s).state
      (by rw [generateStep_state_handler]
          exact findCamera_isSome_after_get_frame s.handler infer enc ts camera_id hs)
    show n + 1 ≤ (runGenerate infer enc ts camera_id (n + 1) s).reads
    simp only [runGenerate]
    omega

theorem generateStep_yielded_format (infer : Nat → InferOutcome) (enc : AnnFrame → Bool)
    (ts : String) (camera_id : Nat) (s : AppState) :
    ∀ p, (generateStep infer enc ts camera_id s).yielded = some p →
      p.boundary = "frame" ∧ p.content_type = "image/jpeg" := by
  unfold generateStep
  cases (s.handler.get_frame infer enc ts camera_id).frame with
  | none => intro p hp; exact absurd hp (by simp)
  | some ann =>
    intro p hp
    simp only [Option.some.injEq] at hp
    rw [← hp]
    exact ⟨rfl, rfl⟩

theorem runGenerate_parts_format (infer : Nat → InferOutcome) (enc : AnnFrame → Bool)
    (ts : String) (camera_id : Nat) :
    ∀ (n : Nat) (s : AppState) (p : StreamPart),
      p ∈ (runGenerate infer enc ts camera_id n s).parts →
      p.boundary = "frame" ∧ p.content_type = "image/jpeg" := by
  intro n
  induction n with
  | zero => intro s p hp; exact absurd hp (List.not_mem_nil p)
  | succ n ih =>
    intro s p hp
    simp only [runGenerate, List.mem_append] at hp
    rcases hp with hp | hp
    · cases hy : (generateStep infer enc ts camera_id s).yielded with
      | none => rw [hy] at hp; exact absurd hp (List.not_mem_nil p)
      | some q =>
        rw [hy] at hp
        have hq := List.mem_singleton.mp hp
        rw [hq]
        exact generateStep_yielded_format infer enc ts camera_id s q hy
    · exact ih _ p hp

theorem generateStep_of_unknown (infer : Nat → InferOutcome) (enc : AnnFrame → Bool)
    (ts : String) (camera_id : Nat) (s : AppState)
    (hf : s.handler.findCamera camera_id = none) :
    generateStep infer enc ts camera_id s = ⟨s, none, 0⟩ := by
  unfold generateStep
  rw [get_frame_of_unknown s.handler infer enc ts camera_id hf]

theorem runGenerate_of_unknown (infer : Nat → InferOutcome) (enc : AnnFrame → Bool)
    (ts : String) (camera_id : Nat) :
    ∀ (n : Nat) (s : AppState), s.handler.findCamera camera_id = none →
    runGenerate infer enc ts camera_id n s = ⟨s, [], 0⟩ := by
  intro n
  induction n with
  | zero => intro s _; rfl
  | succ n ih =>
    intro s hf
    simp only [runGenerate, generateStep_of_unknown infer enc ts camera_id s hf]
    rw [ih s hf]
    rfl

theorem get_frame_alert_none_of_no_model (h : Handler) (infer : Nat → InferOutcome)
    (enc : AnnFrame → Bool) (ts : String) (camera_id : Nat)
    (hm : h.model = none) :
    (h.get_frame infer enc ts camera_id).alert = none := by
  unfold Handler.get_frame
  split
  · rfl
  · rw [hm]
    split
    · rfl
    · split <;> rfl

theorem get_frame_frame_of_no_model (h : Handler) (infer : Nat → InferOutcome)
    (enc : AnnFrame → Bool) (ts : String) (camera_id : Nat)
    (hm : h.model = none) :
    ∀ ann, (h.get_frame infer enc ts camera_id).frame = some ann →
      ann.drawn = [] ∧ ann.overlays = ["Model Not Loaded"] := by
  unfold Handler.get_frame
  split
  · intro ann hann; exact absurd hann (by simp)
  · rw [hm]
    split
    · intro ann hann; exact absurd hann (by simp)
    · split
      · intro ann hann
        simp only [Option.some.injEq] at hann
        rw [← hann]
        exact ⟨rfl, rfl⟩
      · intro ann hann; exact absurd hann (by simp)

theorem generateStep_alerts_of_alert_none (infer : Nat → InferOutcome)
    (enc : AnnFrame → Bool) (ts : String) (camera_id : Nat) (s : AppState)
    (ha : (s.handler.get_frame infer enc ts camera_id).alert = none) :
    (generateStep infer enc ts camera_id s).state.alerts = s.alerts := by
  unfold generateStep
  cases (s.handler.get_frame infer enc ts camera_id).frame with
  | none => rfl
  | some ann => simp only [ha]

theorem Cap.read_snd_of_fail (c : Cap) (h : (c.read).1 = none) : (c.read).2 = c := by
  unfold Cap.read at h ⊢
  cases hg : c.video.get? c.pos with
  | some f => rw [hg] at h; exact absurd h (by simp)
  | none => rfl

theorem setCap_model (h : Handler) (camera_id : Nat) (c : Cap) :
    (h.setCap camera_id c).model = h.model := rfl

theorem get_frame_handler_model (h : Handler) (infer : Nat → InferOutcome)
    (enc : AnnFrame → Bool) (ts : String) (camera_id : Nat) :
    ((h.get_frame infer enc ts camera_id).handler).model = h.model := by
  rcases get_frame_handler_cases h infer enc ts camera_id with he | ⟨c, he⟩ <;> rw [he]
  exact setCap_model h camera_id c

theorem generateStep_state_model (infer : Nat → InferOutcome) (enc : AnnFrame → Bool)
    (ts : String) (camera_id : Nat) (s : AppState) :
    (generateStep infer enc ts camera_id s).state.handler.model = s.handler.model := by
  rw [generateStep_state_handler]
  exact get_frame_handler_model s.handler infer enc ts camera_id

theorem runGenerate_alerts_of_no_model (infer : Nat → InferOutcome)
    (enc : AnnFrame → Bool) (ts : String) (camera_id : Nat) :
    ∀ (n : Nat) (s : AppState), s.handler.model = none →
    (runGenerate infer enc ts camera_id n s).state.alerts = s.alerts := by
  intro n
  induction n with
  | zero => intro s _; rfl
  | succ n ih =>
    intro s hm
    show (runGenerate infer enc ts camera_id n
        (generateStep infer enc ts camera_id s).state).state.alerts = s.alerts
    rw [ih _ (by rw [generateStep_state_model]; exact hm)]
    exact generateStep_alerts_of_alert_none infer enc ts camera_id s
      (get_frame_alert_none_of_no_model s.handler infer enc ts camera_id hm)

/-! ## Claim theorems -/

/-- C1 (counterexample): two detections qualify for an alert in one
frame (both `person`, confidences 0.6 and 0.7 on camera 0), yet the
cycle publishes exactly one alert, not two: the `alert` variable is a
single slot overwritten per qualifying detection, so the number of
alerts appended to the store for that frame is 1, not the number of
qualifying detections (2). -/
theorem two_qualifying_detections_single_alert :
    (([⟨0, mkRat 3 5, 0, 0, 10, 10⟩, ⟨0, mkRat 7 10, 1, 1, 9, 9⟩] : List Box).countP
        (alertQual 0 namesTest)) = 2
    ∧ (generateStep
        (fun _ => .ok [⟨0, mkRat 3 5, 0, 0, 10, 10⟩, ⟨0, mkRat 7 10, 1, 1, 9, 9⟩])
        encAll ts0 0 ⟨handlerTest, []⟩).state.alerts.length = 1 :=
  ⟨rfl, rfl⟩

/-- C1 (amended): a frame publishes at most one Alert.  The single
alert slot is overwritten by each qualifying detection, so after the
loop it holds exactly the alert built from the *last* qualifying
detection in iteration order (and `none` when no detection
qualifies), regardless of how many detections qualify. -/
theorem alert_slot_keeps_only_last_qualifying (camera_id : Nat)
    (names : Nat → String) (ts : String) (boxes : List Box) :
    (processDetections camera_id names ts boxes).alert =
      (boxes.filter (alertQual camera_id names)).getLast?.bind
        (mkAlertOfBox camera_id names ts) :=
  processDetections_alert_eq camera_id names ts boxes

/-- C2 (counterexample): the global `alerts` list is a plain Python
list with no eviction: after 11 streaming cycles that each raise an
alert, the store holds 11 alerts — more than the claimed capacity 10 —
in a state reachable from the empty store. -/
theorem alert_store_reaches_eleven :
    10 < (runGenerate inferPerson encAll ts0 0 11 ⟨handlerTest, []⟩).state.alerts.length := by
  have h : (runGenerate inferPerson encAll ts0 0 11
      ⟨handlerTest, []⟩).state.alerts.length = 11 := rfl
  omega

/-- C2 (amended): `alerts.append` never evicts — it is plain list
append, so the store grows without bound; the 10-entry bound is
enforced only at read time: `GET /api/alerts` returns the last
`min(n+1, 10)` alerts in append order, and immediately after an 11th
append it returns entries 2-11. -/
theorem alerts_unbounded_truncated_at_read (l : List Alert) (a : Alert) :
    appendAlert l a = l ++ [a]
    ∧ (apiAlerts (appendAlert l a)).length = min (l.length + 1) 10
    ∧ (l.length = 10 → apiAlerts (appendAlert l a) = l.drop 1 ++ [a]) := by
  refine ⟨rfl, ?_, ?_⟩
  · simp only [apiAlerts, appendAlert, List.length_append, List.length_drop,
      List.length_singleton]
    omega
  · intro hl
    simp only [apiAlerts, appendAlert, List.length_append, List.length_singleton, hl]
    rw [show 10 + 1 - 10 = 1 by omega, List.drop_append_of_le_length (by omega)]

/-- Witness for C2 (amended) at a store of ten concrete alerts. -/
theorem alerts_unbounded_truncated_at_read_witness :
    (List.replicate 10 (mkAlert 0 ts0 "person" "Human Detected" (mkRat 3 5))).length = 10
    ∧ apiAlerts (appendAlert
        (List.replicate 10 (mkAlert 0 ts0 "person" "Human Detected" (mkRat 3 5)))
        (mkAlert 1 ts0 "cow" "Cow Detected" (mkRat 7 10)))
      = (List.replicate 10 (mkAlert 0 ts0 "person" "Human Detected" (mkRat 3 5))).drop 1
        ++ [mkAlert 1 ts0 "cow" "Cow Detected" (mkRat 7 10)] :=
  ⟨rfl, (alerts_unbounded_truncated_at_read
      (List.replicate 10 (mkAlert 0 ts0 "person" "Human Detected" (mkRat 3 5)))
      (mkAlert 1 ts0 "cow" "Cow Detected" (mkRat 7 10))).2.2 rfl⟩

/-- C3 (counterexample): a camera whose decoder yields no frames
(both the read and the post-rewind retry fail) does *not* enter a
stalled state: the cycle issues 2 reads and yields nothing, and the
very next cycle again issues 2 reads — the failed read is re-attempted
on every subsequent cycle, with no Stalled state and no reopening
required. -/
theorem double_eos_reread_next_cycle :
    (generateStep inferPerson encAll ts0 0 ⟨handlerEmpty, []⟩).yielded = none
    ∧ (generateStep inferPerson encAll ts0 0 ⟨handlerEmpty, []⟩).reads = 2
    ∧ (generateStep inferPerson encAll ts0 0
        (generateStep inferPerson encAll ts0 0 ⟨handlerEmpty, []⟩).state).reads = 2 :=
  ⟨rfl, rfl, rfl⟩

/-- C3 (amended): on end-of-stream the handler seeks back to frame 0
and retries exactly once within the call (2 reads total, result =
the post-rewind read); if the retry also fails the call returns no
frame and no alert — but there is no Stalled state: the next cycle on
the resulting handler issues 2 fresh reads again. -/
theorem eos_retry_once_no_stalled_state (h : Handler) (infer : Nat → InferOutcome)
    (enc : AnnFrame → Bool) (ts : String) (camera_id : Nat) (info : CameraInfo)
    (hf : h.findCamera camera_id = some info)
    (h1 : (info.cap.read).1 = none) :
    (h.get_frame infer enc ts camera_id).reads = 2
    ∧ (readFrameLooping info.cap).1 = (info.cap.seek0.read).1
    ∧ ((info.cap.seek0.read).1 = none →
        (h.get_frame infer enc ts camera_id).frame = none
        ∧ (h.get_frame infer enc ts camera_id).alert = none
        ∧ (((h.get_frame infer enc ts camera_id).handler).get_frame
            infer enc ts camera_id).reads = 2) := by
  have hrfl : readFrameLooping info.cap =
      ((info.cap.seek0.read).1, (info.cap.seek0.read).2, 2) := by
    unfold readFrameLooping
    rw [h1]
  refine ⟨?_, ?_, ?_⟩
  · rw [get_frame_reads_eq h infer enc ts camera_id info hf, hrfl]
  · rw [hrfl]
  · intro h2
    have hread : (readFrameLooping info.cap).1 = none := by rw [hrfl]; exact h2
    have hgf : h.get_frame infer enc ts camera_id =
        ⟨none, none, h.setCap camera_id (readFrameLooping info.cap).2.1,
         (readFrameLooping info.cap).2.2⟩ := by
      simp only [Handler.get_frame, hf, hread]
    have hcap : (readFrameLooping info.cap).2.1 = info.cap.seek0 := by
      rw [hrfl]
      exact Cap.read_snd_of_fail info.cap.seek0 h2
    refine ⟨by rw [hgf], by rw [hgf], ?_⟩
    rw [hgf]
    have hf2 : (h.setCap camera_id info.cap.seek0).findCamera camera_id
        = some { info with cap := info.cap.seek0 } := by
      rw [findCamera_setCap, hf]
      rfl
    rw [show (⟨none, none, h.setCap camera_id (readFrameLooping info.cap).2.1,
        (readFrameLooping info.cap).2.2⟩ : FrameResult).handler
      = h.setCap camera_id (readFrameLooping info.cap).2.1 from rfl, hcap]
    rw [get_frame_reads_eq _ infer enc ts camera_id _ hf2]
    unfold readFrameLooping
    rw [show ({ info with cap := info.cap.seek0 } : CameraInfo).cap
      = info.cap.seek0 from rfl, h2]

/-- Witness for C3 (amended) on a camera whose video has no frames. -/
theorem eos_retry_once_no_stalled_state_witness :
    handlerEmpty.findCamera 0 = some ⟨⟨[], 0⟩, "empty.mp4"⟩
    ∧ (((⟨[], 0⟩ : Cap).read).1 = none)
    ∧ (handlerEmpty.get_frame inferPerson encAll ts0 0).reads = 2 :=
  ⟨rfl, rfl,
   (eos_retry_once_no_stalled_state handlerEmpty inferPerson encAll ts0 0
      ⟨⟨[], 0⟩, "empty.mp4"⟩ rfl rfl).1⟩

/-- C4 (counterexample): viewer iterations multiply decoder reads.
With one viewer iteration on camera 0 the round issues 1 read; with 5
viewer iterations interleaved on the same shared handler the round
issues 5 reads — not the single read per cycle the claim asserts. -/
theorem five_viewer_round_five_reads :
    (runGenerate inferPerson encAll ts0 0 1 ⟨handlerMany, []⟩).reads = 1
    ∧ (runGenerate inferPerson encAll ts0 0 5 ⟨handlerMany, []⟩).reads = 5 :=
  ⟨rfl, rfl⟩

/-- C4 (amended): there is no single camera worker.  Each viewer's
`generate` loop calls `get_frame` directly on the shared handler,
itself issuing 1 or 2 decoder reads per iteration, so a round of `n`
viewer iterations on a known camera issues at least `n` reads in
total. -/
theorem each_viewer_iteration_issues_reads (infer : Nat → InferOutcome)
    (enc : AnnFrame → Bool) (ts : String) (camera_id : Nat) (n : Nat) (s : AppState)
    (hs : (s.handler.findCamera camera_id).isSome = true) :
    ((s.handler.get_frame infer enc ts camera_id).reads = 1
      ∨ (s.handler.get_frame infer enc ts camera_id).reads = 2)
    ∧ n ≤ (runGenerate infer enc ts camera_id n s).reads := by
  obtain ⟨info, hinfo⟩ := Option.isSome_iff_exists.mp hs
  refine ⟨?_, runGenerate_reads_ge infer enc ts camera_id n s hs⟩
  rw [get_frame_reads_eq s.handler infer enc ts camera_id info hinfo]
  exact readFrameLooping_reads info.cap

/-- Witness for C4 (amended): a 5-iteration round on camera 0. -/
theorem each_viewer_iteration_issues_reads_witness :
    ((⟨handlerMany, []⟩ : AppState).handler.findCamera 0).isSome = true
    ∧ 5 ≤ (runGenerate inferPerson encAll ts0 0 5 ⟨handlerMany, []⟩).reads :=
  ⟨rfl, (each_viewer_iteration_issues_reads inferPerson encAll ts0 0 5
      ⟨handlerMany, []⟩ rfl).2⟩

/-- C5 (confirmed): the per-camera label override happens after raw
inference and before alert thresholding.  A detection at confidence
0.6 whose original label is in the agricultural table produces, on
camera 0 (no override), exactly one Alert carrying the original
label; the same detection on camera 1 (forced label `cow`) produces
the Alert labelled `cow` — whatever the original label was. -/
theorem label_override_applied_before_alert_threshold
    (names : Nat → String) (cls : Nat) (x1 y1 x2 y2 : Int)
    (camName ts msg : String)
    (hagri : agriLookup (names cls) = some msg) :
    (annotateFrame (some names) 0 camName
        (.ok [⟨cls, mkRat 3 5, x1, y1, x2, y2⟩]) ts).2
      = some ⟨names cls ++ "_detected", msg, 0, mkRat 3 5, ts⟩
    ∧ (annotateFrame (some names) 1 camName
        (.ok [⟨cls, mkRat 3 5, x1, y1, x2, y2⟩]) ts).2
      = some ⟨"cow_detected", "Cow Detected", 1, mkRat 3 5, ts⟩ := by
  constructor
  · show (processDetections 0 names ts [⟨cls, mkRat 3 5, x1, y1, x2, y2⟩]).alert = _
    rw [processDetections_alert_eq]
    have hq : alertQual 0 names ⟨cls, mkRat 3 5, x1, y1, x2, y2⟩ = true := by
      simp only [alertQual, resolveLabel, Bool.and_eq_true, decide_eq_true_eq]
      refine ⟨⟨by decide, ?_⟩, by decide⟩
      simp [hagri]
    simp only [List.filter_cons, hq, if_true, List.filter_nil, List.getLast?_singleton,
      Option.some_bind, mkAlertOfBox, resolveLabel, mkAlert]
    simp [hagri, mkAlert]
  · show (processDetections 1 names ts [⟨cls, mkRat 3 5, x1, y1, x2, y2⟩]).alert = _
    rw [processDetections_alert_eq]
    have hres : resolveLabel 1 names ⟨cls, mkRat 3 5, x1, y1, x2, y2⟩ = "cow" := rfl
    have hq : alertQual 1 names ⟨cls, mkRat 3 5, x1, y1, x2, y2⟩ = true := by
      simp only [alertQual, hres, Bool.and_eq_true, decide_eq_true_eq]
      exact ⟨⟨by decide, by decide⟩, by decide⟩
    simp only [List.filter_cons, hq, if_true, List.filter_nil, List.getLast?_singleton,
      Option.some_bind, mkAlertOfBox, hres]
    rw [show agriLookup "cow" = some "Cow Detected" from rfl]
    simp [mkAlert]

/-- Witness for C5 at a concrete `person` detection. -/
theorem label_override_applied_before_alert_threshold_witness :
    agriLookup (namesTest 0) = some "Human Detected"
    ∧ (annotateFrame (some namesTest) 0 "field.mp4"
        (.ok [⟨0, mkRat 3 5, 0, 0, 10, 10⟩]) ts0).2
      = some ⟨namesTest 0 ++ "_detected", "Human Detected", 0, mkRat 3 5, ts0⟩ :=
  ⟨rfl, (label_override_applied_before_alert_threshold namesTest 0 0 0 10 10
      "field.mp4" ts0 "Human Detected" rfl).1⟩

/-- C6 (counterexample): a detection whose confidence 0.4 lies
strictly between the display threshold 0.3 and the alert threshold
0.5, but whose label (`chair`) is not in the agricultural table, gets
*no* bounding box drawn — the claim's universal "a bounding box is
drawn" fails for it (and no alert is produced either). -/
theorem nonagricultural_midband_detection_not_drawn :
    (annotateFrame (some namesTest) 0 "field.mp4"
        (.ok [⟨1, mkRat 2 5, 0, 0, 5, 5⟩]) ts0).1.drawn = []
    ∧ (annotateFrame (some namesTest) 0 "field.mp4"
        (.ok [⟨1, mkRat 2 5, 0, 0, 5, 5⟩]) ts0).2 = none :=
  ⟨rfl, rfl⟩

/-- C6 (amended): for every detection whose (possibly overridden)
label is in the agricultural table and whose confidence lies strictly
between 0.3 and 0.5, a bounding box is drawn and the detection raises
no alert: any alert the frame publishes has confidence strictly above
0.5, and a frame none of whose detections exceed 0.5 publishes no
alert at all. -/
theorem midband_agricultural_drawn_without_alert (camera_id : Nat)
    (names : Nat → String) (ts : String) (boxes : List Box) (b : Box) (msg : String)
    (hmem : b ∈ boxes) (h1 : mkRat 3 10 < b.conf) (h2 : ¬ mkRat 1 2 < b.conf)
    (hagri : agriLookup (resolveLabel camera_id names b) = some msg) :
    drawnBoxOf camera_id names b ∈ (processDetections camera_id names ts boxes).drawn
    ∧ (∀ a, (processDetections camera_id names ts boxes).alert = some a →
        mkRat 1 2 < a.confidence)
    ∧ ((∀ b' ∈ boxes, ¬ mkRat 1 2 < b'.conf) →
        (processDetections camera_id names ts boxes).alert = none) := by
  refine ⟨?_, ?_, ?_⟩
  · exact drawnBoxOf_mem_foldl camera_id names ts boxes _ b hmem h1 msg hagri
  · intro a ha
    rw [processDetections_alert_eq] at ha
    cases hg : (boxes.filter (alertQual camera_id names)).getLast? with
    | none => rw [hg] at ha; exact absurd ha (by simp)
    | some x =>
      rw [hg, Option.some_bind] at ha
      have hq := (List.mem_filter.mp (List.mem_of_getLast?_eq_some hg)).2
      simp only [alertQual, Bool.and_eq_true, decide_eq_true_eq] at hq
      obtain ⟨⟨_, _⟩, hx2⟩ := hq
      simp only [mkAlertOfBox] at ha
      cases hax : agriLookup (resolveLabel camera_id names x) with
      | none => rw [hax] at ha; exact absurd ha (by simp)
      | some m =>
        rw [hax, Option.map_some', Option.some.injEq] at ha
        rw [← ha]
        exact hx2
  · intro hall
    rw [processDetections_alert_eq]
    have hnil : boxes.filter (alertQual camera_id names) = [] := by
      rw [List.filter_eq_nil_iff]
      intro b' hb'
      simp [alertQual, hall b' hb']
    rw [hnil]
    rfl

/-- Witness for C6 (amended) at a `person` detection of confidence 0.4. -/
theorem midband_agricultural_drawn_without_alert_witness :
    ((⟨0, mkRat 2 5, 0, 0, 5, 5⟩ : Box) ∈ ([⟨0, mkRat 2 5, 0, 0, 5, 5⟩] : List Box))
    ∧ drawnBoxOf 0 namesTest ⟨0, mkRat 2 5, 0, 0, 5, 5⟩ ∈
        (processDetections 0 namesTest ts0 [⟨0, mkRat 2 5, 0, 0, 5, 5⟩]).drawn
    ∧ (processDetections 0 namesTest ts0 [⟨0, mkRat 2 5, 0, 0, 5, 5⟩]).alert = none :=
  ⟨List.mem_singleton_self _,
   (midband_agricultural_drawn_without_alert 0 namesTest ts0
      [⟨0, mkRat 2 5, 0, 0, 5, 5⟩] ⟨0, mkRat 2 5, 0, 0, 5, 5⟩ "Human Detected"
      (List.mem_singleton_self _) (by decide) (by decide) rfl).1,
   (midband_agricultural_drawn_without_alert 0 namesTest ts0
      [⟨0, mkRat 2 5, 0, 0, 5, 5⟩] ⟨0, mkRat 2 5, 0, 0, 5, 5⟩ "Human Detected"
      (List.mem_singleton_self _) (by decide) (by decide) rfl).2.2 (by decide)⟩

/-- C7 (confirmed): with the model absent (`self.model = None`) the
alert returned is always `None`, so a cycle never changes the alert
store — and any number of cycles leaves it unchanged; every frame the
cycle emits carries the `Model Not Loaded` marker overlay and no
bounding boxes; and whenever the cycle obtains a raw frame and its
encoding succeeds, the marker frame *is* emitted as a multipart
part — detector absence never stops frame production. -/
theorem absent_model_marker_frames_and_no_alerts (infer : Nat → InferOutcome)
    (enc : AnnFrame → Bool) (ts : String) (camera_id : Nat) (s : AppState)
    (hm : s.handler.model = none) :
    (generateStep infer enc ts camera_id s).state.alerts = s.alerts
    ∧ (∀ n, (runGenerate infer enc ts camera_id n s).state.alerts = s.alerts)
    ∧ (∀ p, (generateStep infer enc ts camera_id s).yielded = some p →
        p.payload.drawn = [] ∧ p.payload.overlays = ["Model Not Loaded"])
    ∧ (∀ (info : CameraInfo) (f : Nat),
        s.handler.findCamera camera_id = some info →
        (readFrameLooping info.cap).1 = some f →
        enc ⟨"Camera " ++ toString (camera_id + 1) ++ ": " ++ info.name, [],
          ["Model Not Loaded"]⟩ = true →
        (generateStep infer enc ts camera_id s).yielded =
          some ⟨"frame", "image/jpeg",
            ⟨"Camera " ++ toString (camera_id + 1) ++ ": " ++ info.name, [],
             ["Model Not Loaded"]⟩⟩) := by
  refine ⟨?_, ?_, ?_, ?_⟩
  · exact generateStep_alerts_of_alert_none infer enc ts camera_id s
      (get_frame_alert_none_of_no_model s.handler infer enc ts camera_id hm)
  · intro n
    exact runGenerate_alerts_of_no_model infer enc ts camera_id n s hm
  · intro p hp
    unfold generateStep at hp
    cases hfr : (s.handler.get_frame infer enc ts camera_id).frame with
    | none => rw [hfr] at hp; exact absurd hp (by simp)
    | some ann =>
      rw [hfr] at hp
      simp only [Option.some.injEq] at hp
      have := get_frame_frame_of_no_model s.handler infer enc ts camera_id hm ann hfr
      rw [← hp]
      exact this
  · intro info f hf hread henc
    have hann : annotateFrame s.handler.model camera_id info.name (infer f) ts =
        (⟨"Camera " ++ toString (camera_id + 1) ++ ": " ++ info.name, [],
          ["Model Not Loaded"]⟩, none) := by
      rw [hm]
      rfl
    have hgf : s.handler.get_frame infer enc ts camera_id =
        ⟨some ⟨"Camera " ++ toString (camera_id + 1) ++ ": " ++ info.name, [],
          ["Model Not Loaded"]⟩, none,
         s.handler.setCap camera_id (readFrameLooping info.cap).2.1,
         (readFrameLooping info.cap).2.2⟩ := by
      simp only [Handler.get_frame, hf, hread, hann, henc, if_true]
    unfold generateStep
    rw [hgf]

/-- Witness for C7 on a handler whose model failed to load: the cycle
leaves the store untouched *and* emits the marker frame. -/
theorem absent_model_marker_frames_and_no_alerts_witness :
    (⟨handlerNoModel, []⟩ : AppState).handler.model = none
    ∧ (generateStep inferPerson encAll ts0 0 ⟨handlerNoModel, []⟩).state.alerts = []
    ∧ (generateStep inferPerson encAll ts0 0 ⟨handlerNoModel, []⟩).yielded =
        some ⟨"frame", "image/jpeg",
          ⟨"Camera " ++ toString (0 + 1) ++ ": " ++ "field.mp4", [],
           ["Model Not Loaded"]⟩⟩ :=
  ⟨rfl,
   (absent_model_marker_frames_and_no_alerts inferPerson encAll ts0 0
      ⟨handlerNoModel, []⟩ rfl).1,
   (absent_model_marker_frames_and_no_alerts inferPerson encAll ts0 0
      ⟨handlerNoModel, []⟩ rfl).2.2.2 ⟨capOne, "field.mp4"⟩ 100 rfl rfl rfl⟩

/-- C8 (confirmed): when the model call raises (`InferOutcome.err`),
the exception is caught inside the cycle: the frame is still
annotated (with the `Detection Error` overlay), encoded and emitted
as a multipart part, no alert is raised, and the loop state is
otherwise advanced normally — the failure never escapes the per-frame
processing. -/
theorem inference_error_overlay_frame_still_emitted (infer : Nat → InferOutcome)
    (enc : AnnFrame → Bool) (ts : String) (camera_id : Nat) (s : AppState)
    (names : Nat → String) (info : CameraInfo) (f : Nat)
    (hm : s.handler.model = some names)
    (hf : s.handler.findCamera camera_id = some info)
    (hread : (readFrameLooping info.cap).1 = some f)
    (herr : infer f = InferOutcome.err)
    (henc : enc ⟨"Camera " ++ toString (camera_id + 1) ++ ": " ++ info.name, [],
        ["Detection Error"]⟩ = true) :
    (generateStep infer enc ts camera_id s).yielded =
      some ⟨"frame", "image/jpeg",
        ⟨"Camera " ++ toString (camera_id + 1) ++ ": " ++ info.name, [],
         ["Detection Error"]⟩⟩
    ∧ (generateStep infer enc ts camera_id s).state.alerts = s.alerts := by
  have hann : annotateFrame s.handler.model camera_id info.name (infer f) ts =
      (⟨"Camera " ++ toString (camera_id + 1) ++ ": " ++ info.name, [],
        ["Detection Error"]⟩, none) := by
    rw [hm, herr]
    rfl
  have hgf : s.handler.get_frame infer enc ts camera_id =
      ⟨some ⟨"Camera " ++ toString (camera_id + 1) ++ ": " ++ info.name, [],
        ["Detection Error"]⟩, none,
       s.handler.setCap camera_id (readFrameLooping info.cap).2.1,
       (readFrameLooping info.cap).2.2⟩ := by
    simp only [Handler.get_frame, hf, hread, hann, henc, if_true]
  constructor
  · unfold generateStep
    rw [hgf]
  · unfold generateStep
    rw [hgf]

/-- Witness for C8: a cycle whose inference always raises. -/
theorem inference_error_overlay_frame_still_emitted_witness :
    (⟨handlerTest, []⟩ : AppState).handler.model = some namesTest
    ∧ (generateStep (fun _ => InferOutcome.err) encAll ts0 0
        ⟨handlerTest, []⟩).state.alerts = [] :=
  ⟨rfl, (inference_error_overlay_frame_still_emitted (fun _ => InferOutcome.err)
      encAll ts0 0 ⟨handlerTest, []⟩ namesTest ⟨capOne, "field.mp4"⟩ 100
      rfl rfl rfl rfl rfl).2⟩

/-- C9 (counterexample): for a camera id absent from the catalog
(99), the `while True` loop neither yields a part nor terminates: 5
iterations produce no parts and leave the state untouched — the
stream stays open without yielding parts instead of being closed
immediately as claimed. -/
theorem unknown_camera_stream_never_yields_never_closes :
    (runGenerate inferPerson encAll ts0 99 5 ⟨handlerTest, []⟩).parts = []
    ∧ (runGenerate inferPerson encAll ts0 99 5
        ⟨handlerTest, []⟩).state.handler.cameras = handlerTest.cameras
    ∧ (runGenerate inferPerson encAll ts0 99 5 ⟨handlerTest, []⟩).state.alerts = [] :=
  ⟨rfl, rfl, rfl⟩

/-- C9 (amended): for an unknown camera id the generate loop runs
forever without yielding any part (every iteration is a no-op on the
state); for any camera the response carries mimetype
`multipart/x-mixed-replace; boundary=frame` and every part it does
yield has boundary `frame` and content type `image/jpeg`. -/
theorem stream_format_and_unknown_camera_behavior (infer : Nat → InferOutcome)
    (enc : AnnFrame → Bool) (ts : String) (camera_id : Nat) (n : Nat) (s : AppState) :
    (s.handler.findCamera camera_id = none →
      runGenerate infer enc ts camera_id n s = ⟨s, [], 0⟩)
    ∧ (∀ p ∈ (runGenerate infer enc ts camera_id n s).parts,
        p.boundary = "frame" ∧ p.content_type = "image/jpeg")
    ∧ videoFeedMimetype = "multipart/x-mixed-replace; boundary=frame" :=
  ⟨runGenerate_of_unknown infer enc ts camera_id n s,
   fun p hp => runGenerate_parts_format infer enc ts camera_id n s p hp,
   rfl⟩

/-- Witness for C9 (amended) at the unknown camera id 99. -/
theorem stream_format_and_unknown_camera_behavior_witness :
    (⟨handlerTest, []⟩ : AppState).handler.findCamera 99 = none
    ∧ runGenerate inferPerson encAll ts0 99 3 ⟨handlerTest, []⟩
        = ⟨⟨handlerTest, []⟩, [], 0⟩ :=
  ⟨rfl, (stream_format_and_unknown_camera_behavior inferPerson encAll ts0 99 3
      ⟨handlerTest, []⟩).1 rfl⟩

/-- C10 (confirmed): the agricultural gate.  The hardcoded table has
exactly the twelve claimed classes; every drawn box and every counted
detection carries a label from the table; every published alert is
built from a table label; and a box whose (possibly overridden) label
is outside the table leaves the loop state completely unchanged — no
bounding box, no detection, no alert — regardless of its confidence. -/
theorem agricultural_class_gate (camera_id : Nat) (names : Nat → String)
    (ts : String) (boxes : List Box) :
    agricultural_classes.map Prod.fst =
      ["person", "cow", "sheep", "horse", "dog", "cat", "bird", "car", "truck",
       "bicycle", "goat", "pig"]
    ∧ (∀ d ∈ (processDetections camera_id names ts boxes).drawn,
        (agriLookup d.label).isSome = true)
    ∧ (∀ d ∈ (processDetections camera_id names ts boxes).detections,
        (agriLookup d.label).isSome = true)
    ∧ (∀ a, (processDetections camera_id names ts boxes).alert = some a →
        ∃ lab m, agriLookup lab = some m ∧ a.type = lab ++ "_detected"
          ∧ a.message = m)
    ∧ (∀ (s : ProcState) (b : Box),
        agriLookup (resolveLabel camera_id names b) = none →
        processBox camera_id names ts s b = s) := by
  refine ⟨rfl, ?_, ?_, ?_, ?_⟩
  · exact foldl_drawn_labels camera_id names ts boxes ⟨[], none, []⟩
      (fun d hd => absurd hd (List.not_mem_nil d))
  · exact foldl_detections_labels camera_id names ts boxes ⟨[], none, []⟩
      (fun d hd => absurd hd (List.not_mem_nil d))
  · intro a ha
    rw [processDetections_alert_eq] at ha
    cases hg : (boxes.filter (alertQual camera_id names)).getLast? with
    | none => rw [hg] at ha; exact absurd ha (by simp)
    | some x =>
      rw [hg, Option.some_bind] at ha
      simp only [mkAlertOfBox] at ha
      cases hax : agriLookup (resolveLabel camera_id names x) with
      | none => rw [hax] at ha; exact absurd ha (by simp)
      | some m =>
        rw [hax, Option.map_some', Option.some.injEq] at ha
        exact ⟨resolveLabel camera_id names x, m, hax, by rw [← ha]; rfl,
          by rw [← ha]; rfl⟩
  · intro s b hnone
    by_cases h1 : mkRat 3 10 < b.conf
    · simp only [processBox, if_pos h1, hnone]
    · simp only [processBox, if_neg h1]

/-- Witness for C10: a `chair` detection at confidence 0.9 leaves the
loop state untouched. -/
theorem agricultural_class_gate_witness :
    agriLookup (resolveLabel 0 namesTest ⟨1, mkRat 9 10, 0, 0, 5, 5⟩) = none
    ∧ processBox 0 namesTest ts0 ⟨[], none, []⟩ ⟨1, mkRat 9 10, 0, 0, 5, 5⟩
        = ⟨[], none, []⟩ :=
  ⟨rfl, (agricultural_class_gate 0 namesTest ts0 []).2.2.2.2
      ⟨[], none, []⟩ ⟨1, mkRat 9 10, 0, 0, 5, 5⟩ rfl⟩
